import Mathlib

/-!
Shallow embedding of the Moonwell protocol event indexer
(event handlers in the main source file: Borrow, RepayBorrow, Mint,
Redeem, LiquidateBorrow, Transfer, plus the storeEvent helper) and of
its database state (userMetrics, userTransactions, userAddresses), with
theorems settling the specification claims about balance reconciliation.

Conventions of the embedding:
  - Addresses, token symbols and transaction hashes are strings, as in
    the source (address comparison in the Transfer handler is string
    equality against the zero-address literal).
  - A userMetrics token cell is the decimal-string pair
    [amountSupplied, amountBorrowed]; JavaScript BigInt arithmetic on the
    parsed strings is exact signed integer arithmetic, so a cell is
    modelled as a pair of integers.  A row that is absent, or whose
    jsonb column is not a two-element array (the schema default is the
    empty array), reads as an absent cell: in every handler both cases
    produce the same fallback data, so they are collapsed into one.
  - console.error output and the ./logs/errors.log appends performed by
    logError are modelled as two append-only string lists.
  - userTransactions has primary key id = transactionHash-logIndex; an
    insert on a duplicate key throws, which storeEvent itself catches.
-/

abbrev Address := String

def zeroAddress : Address := "0x0000000000000000000000000000000000000000"

structure Token where
  address : Address
  decimals : Nat
  symbol : String
deriving DecidableEq

structure EventMeta where
  blockNumber : Nat
  blockTimestamp : Nat
  txHash : String
  logIndex : Nat
deriving DecidableEq

/-- The six raw event argument records of types.ts, as decoded by the
event source and destructured by each handler. -/
inductive RawEvent where
  | borrow (borrower : Address) (borrowAmount accountBorrows totalBorrows : Nat)
  | repayBorrow (payer borrower : Address) (repayAmount accountBorrows totalBorrows : Nat)
  | mint (minter : Address) (mintAmount mintTokens : Nat)
  | redeem (redeemer : Address) (redeemAmount redeemTokens : Nat)
  | liquidateBorrow (liquidator borrower : Address) (repayAmount : Nat)
      (mTokenCollateral : Address) (seizeTokens : Nat)
  | transfer (frm toAddr : Address) (amount : Nat)
deriving DecidableEq

/-- The IndexedEvent record each handler builds before storing. -/
structure IndexedEvent where
  type : String
  user : Address
  token : String
  tokenAddress : Address
  amount : Nat
  tokenAmount : Option Nat := none
  relatedAddress : Option Address := none
  blockNumber : Nat
  blockTimestamp : Nat
  transactionHash : String
  logIndex : Nat
deriving DecidableEq

/-- A userTransactions row, as written by storeEvent. -/
structure TxRecord where
  id : String
  userAddress : Address
  mTokenAddress : Address
  tokenSymbol : String
  transactionType : String
  amount : Nat
  tokenAmount : Option Nat
  relatedAddress : Option Address
  blockNumber : Nat
  blockTimestamp : Nat
  transactionHash : String
deriving DecidableEq

/-- A userAddresses row; primary key is (userAddress, tokenSymbol). -/
structure Link where
  userAddress : Address
  tokenSymbol : String
  tokenAddress : Address
deriving DecidableEq

/-- The database plus diagnostic sinks.  metrics maps a user address and
a token symbol to the optional [amountSupplied, amountBorrowed] cell. -/
structure DB where
  metrics : Address → String → Option (Int × Int)
  txLog : List TxRecord
  links : List Link
  consoleErrors : List String
  errorLog : List String

def suppliedOf (db : DB) (a : Address) (t : String) : Int :=
  ((db.metrics a t).getD (0, 0)).1

def borrowedOf (db : DB) (a : Address) (t : String) : Int :=
  ((db.metrics a t).getD (0, 0)).2

/-- db.insert(userMetrics).values(...).onConflictDoUpdate(...): create the
row if absent, and set the one token column to the given pair. -/
def upsertMetric (db : DB) (u : Address) (sym : String) (v : Int × Int) : DB :=
  { db with metrics := fun a t => if a = u ∧ t = sym then some v else db.metrics a t }

/-- id column of userTransactions: transactionHash-logIndex. -/
def mkId (e : IndexedEvent) : String :=
  e.transactionHash ++ "-" ++ toString e.logIndex

def mkRecord (e : IndexedEvent) : TxRecord :=
  { id := mkId e
    userAddress := e.user
    mTokenAddress := e.tokenAddress
    tokenSymbol := e.token
    transactionType := e.type
    amount := e.amount
    tokenAmount := e.tokenAmount
    relatedAddress := e.relatedAddress
    blockNumber := e.blockNumber
    blockTimestamp := e.blockTimestamp
    transactionHash := e.transactionHash }

/-- db.insert(userAddresses).values(...).onConflictDoNothing(), keyed by
(userAddress, tokenSymbol). -/
def linkInsert (ls : List Link) (l : Link) : List Link :=
  if ls.any (fun x => x.userAddress == l.userAddress && x.tokenSymbol == l.tokenSymbol)
  then ls else ls ++ [l]

/-- Error context string built in the catch block of storeEvent. -/
def storeEventErrCtx (e : IndexedEvent) : String :=
  "Failed to store event - Type: " ++ e.type ++ ", User: " ++ e.user ++ ", Token: " ++ e.token

/-- storeEvent: insert the userTransactions row (a duplicate id makes the
insert throw), then the insert-or-ignore userAddresses rows for the user
and the optional related address.  The whole body is wrapped in a
try/catch whose catch logs the error to console.error and via logError;
the second component records the exception escaping storeEvent, which by
construction of the catch is always none. -/
def storeLinks (ls : List Link) (e : IndexedEvent) : List Link :=
  let ls1 := linkInsert ls ⟨e.user, e.token, e.tokenAddress⟩
  match e.relatedAddress with
  | some rel => linkInsert ls1 ⟨rel, e.token, e.tokenAddress⟩
  | none => ls1

def storeEventRun (db : DB) (e : IndexedEvent) : DB × Option String :=
  let r := mkRecord e
  if db.txLog.any (fun x => x.id == r.id) then
    let ctx := storeEventErrCtx e
    ({ db with
        consoleErrors := db.consoleErrors ++ ["[DB ERROR] " ++ ctx]
        errorLog := db.errorLog ++ [ctx] }, none)
  else
    ({ db with txLog := db.txLog ++ [r], links := storeLinks db.links e }, none)

def storeEvent (db : DB) (e : IndexedEvent) : DB :=
  (storeEventRun db e).1

/-- The Event Normalizer: the IndexedEvent literal each handler builds
from the raw event arguments and the chain-location metadata. -/
def normalizeEvent (tok : Token) (m : EventMeta) : RawEvent → IndexedEvent
  | .borrow b amt _ _ =>
      { type := "Borrow", user := b, token := tok.symbol, tokenAddress := tok.address
        amount := amt, blockNumber := m.blockNumber, blockTimestamp := m.blockTimestamp
        transactionHash := m.txHash, logIndex := m.logIndex }
  | .repayBorrow p b amt _ _ =>
      { type := "RepayBorrow", user := b, token := tok.symbol, tokenAddress := tok.address
        amount := amt, relatedAddress := if p ≠ b then some p else none
        blockNumber := m.blockNumber, blockTimestamp := m.blockTimestamp
        transactionHash := m.txHash, logIndex := m.logIndex }
  | .mint mn amt tks =>
      { type := "Mint", user := mn, token := tok.symbol, tokenAddress := tok.address
        amount := amt, tokenAmount := some tks
        blockNumber := m.blockNumber, blockTimestamp := m.blockTimestamp
        transactionHash := m.txHash, logIndex := m.logIndex }
  | .redeem rd amt tks =>
      { type := "Redeem", user := rd, token := tok.symbol, tokenAddress := tok.address
        amount := amt, tokenAmount := some tks
        blockNumber := m.blockNumber, blockTimestamp := m.blockTimestamp
        transactionHash := m.txHash, logIndex := m.logIndex }
  | .liquidateBorrow lq b amt _ seize =>
      { type := "LiquidateBorrow", user := lq, token := tok.symbol, tokenAddress := tok.address
        amount := amt, tokenAmount := some seize, relatedAddress := some b
        blockNumber := m.blockNumber, blockTimestamp := m.blockTimestamp
        transactionHash := m.txHash, logIndex := m.logIndex }
  | .transfer f t amt =>
      { type := "Transfer", user := f, token := tok.symbol, tokenAddress := tok.address
        amount := amt, relatedAddress := if t ≠ f then some t else none
        blockNumber := m.blockNumber, blockTimestamp := m.blockTimestamp
        transactionHash := m.txHash, logIndex := m.logIndex }

/-- [BALANCE ERROR] line of the burn branch of the Transfer handler. -/
def burnErr (frm : Address) (cur : Int) (amt : Nat) : String :=
  "[BALANCE ERROR] Insufficient balance for burn: " ++ frm ++ " has " ++ toString cur
    ++ ", trying to burn " ++ toString amt

/-- [BALANCE ERROR] line of the ordinary branch of the Transfer handler. -/
def xferErr (frm : Address) (cur : Int) (amt : Nat) : String :=
  "[BALANCE ERROR] Insufficient balance for transfer: " ++ frm ++ " has " ++ toString cur
    ++ ", trying to transfer " ++ toString amt

/-- The body of each event handler (the code inside its try block),
translated statement by statement from the source:
  - Borrow / RepayBorrow: read the borrower row, keep amountSupplied when
    the cell is a valid pair (else "0"), overwrite amountBorrowed with
    accountBorrows, store the event, upsert.
  - Mint / Redeem: store the event only.
  - LiquidateBorrow: store the event, read the borrower row, subtract
    repayAmount from amountBorrowed (no clamping) when the cell is a
    valid pair, else write the pair ("0","0"), upsert under the borrower.
  - Transfer: store the event; then mint pattern (from is the zero
    address) credits to, burn pattern (to is the zero address) debits
    from clamped at zero with a console error on underflow, and the
    ordinary branch reads both rows, debits from (clamped, flagged),
    credits to unconditionally from the already-read value, writing from
    first and to second. -/
def processEvent (db : DB) (tok : Token) (m : EventMeta) (ev : RawEvent) : DB :=
  let ie := normalizeEvent tok m ev
  match ev with
  | .borrow borrower _ ab _ =>
      let td : Int × Int :=
        match db.metrics borrower tok.symbol with
        | some p => (p.1, (ab : Int))
        | none => (0, (ab : Int))
      let db1 := storeEvent db ie
      upsertMetric db1 borrower tok.symbol td
  | .repayBorrow _ borrower _ ab _ =>
      let td : Int × Int :=
        match db.metrics borrower tok.symbol with
        | some p => (p.1, (ab : Int))
        | none => (0, (ab : Int))
      let db1 := storeEvent db ie
      upsertMetric db1 borrower tok.symbol td
  | .mint _ _ _ => storeEvent db ie
  | .redeem _ _ _ => storeEvent db ie
  | .liquidateBorrow _ borrower r _ _ =>
      let db1 := storeEvent db ie
      let td : Int × Int :=
        match db1.metrics borrower tok.symbol with
        | some p => (p.1, p.2 - (r : Int))
        | none => (0, 0)
      upsertMetric db1 borrower tok.symbol td
  | .transfer frm t amt =>
      let db1 := storeEvent db ie
      if frm = zeroAddress then
        let p := (db1.metrics t tok.symbol).getD (0, 0)
        upsertMetric db1 t tok.symbol (p.1 + (amt : Int), p.2)
      else if t = zeroAddress then
        let p := (db1.metrics frm tok.symbol).getD (0, 0)
        if (amt : Int) ≤ p.1 then
          upsertMetric db1 frm tok.symbol (p.1 - (amt : Int), p.2)
        else
          let db2 := { db1 with consoleErrors := db1.consoleErrors ++ [burnErr frm p.1 amt] }
          upsertMetric db2 frm tok.symbol (0, p.2)
      else
        let pf := (db1.metrics frm tok.symbol).getD (0, 0)
        let pt := (db1.metrics t tok.symbol).getD (0, 0)
        let fd : Int × Int :=
          if (amt : Int) ≤ pf.1 then (pf.1 - (amt : Int), pf.2) else (0, pf.2)
        let db2 :=
          if (amt : Int) ≤ pf.1 then db1
          else { db1 with consoleErrors := db1.consoleErrors ++ [xferErr frm pf.1 amt] }
        let td : Int × Int := (pt.1 + (amt : Int), pt.2)
        let db3 := upsertMetric db2 frm tok.symbol fd
        upsertMetric db3 t tok.symbol td

def tokDAI : Token := { address := "0xD", decimals := 18, symbol := "DAI" }

def meta0 : EventMeta := { blockNumber := 1, blockTimestamp := 10, txHash := "0xT", logIndex := 0 }

def emptyDB : DB :=
  { metrics := fun _ _ => none, txLog := [], links := [], consoleErrors := [], errorLog := [] }

/-- A database in which user 0xB has supplied 0 and borrowed 5 units of DAI. -/
def dbB5 : DB :=
  { emptyDB with metrics := fun a t => if a = "0xB" ∧ t = "DAI" then some (0, 5) else none }

/-- A database in which user 0xA has supplied 5 and borrowed 0 units of DAI. -/
def dbA5 : DB :=
  { emptyDB with metrics := fun a t => if a = "0xA" ∧ t = "DAI" then some (5, 0) else none }

/-- One step of a Transfer-only event sequence: the transfer arguments
plus the chain-location metadata of the event. -/
structure XferStep where
  frm : Address
  toAddr : Address
  amount : Nat
  meta : EventMeta

/-- Process a sequence of Transfer events for one market. -/
def applyXfers (tok : Token) : DB → List XferStep → DB
  | db, [] => db
  | db, s :: rest =>
      applyXfers tok (processEvent db tok s.meta (.transfer s.frm s.toAddr s.amount)) rest

/-- Decidable side conditions for the amended conservation claim: every
step stays inside the closed address set S, uses no sentinel address,
has distinct sender and receiver, and never underflows the sender's
supplied balance at the state in which it is applied. -/
def okSteps (S : Finset Address) (tok : Token) : DB → List XferStep → Bool
  | _, [] => true
  | db, s :: rest =>
      decide (s.frm ∈ S) && decide (s.toAddr ∈ S)
      && !(s.frm == zeroAddress) && !(s.toAddr == zeroAddress)
      && !(s.frm == s.toAddr)
      && decide ((s.amount : Int) ≤ suppliedOf db s.frm tok.symbol)
      && okSteps S tok (processEvent db tok s.meta (.transfer s.frm s.toAddr s.amount)) rest

/-- A database for replay scenarios: 0xB has borrowed 5 DAI and 0xV has
supplied 7 and borrowed 1 DAI. -/
def dbReplay : DB :=
  { emptyDB with metrics := fun a t =>
      if a = "0xB" ∧ t = "DAI" then some (0, 5)
      else if a = "0xV" ∧ t = "DAI" then some (7, 1)
      else none }

/-- Handler registration name for a market: MToken for the first
configured token, MToken_SYMBOL for the rest. -/
def contractNameOf (isFirst : Bool) (tok : Token) : String :=
  if isFirst then "MToken" else "MToken_" ++ tok.symbol

/-- Per-handler error context string built around each catch block. -/
def errorContext (cn : String) (tok : Token) : RawEvent → String
  | .borrow b _ _ _ =>
      "Borrow event error for token " ++ tok.symbol ++ " - User: " ++ b
  | .repayBorrow p b _ _ _ =>
      "RepayBorrow event error for token " ++ tok.symbol ++ " - Borrower: " ++ b ++ ", Payer: " ++ p
  | .mint mn _ _ =>
      "Mint event error for token " ++ tok.symbol ++ " - User: " ++ mn
  | .redeem rd _ _ =>
      "Redeem event error for token " ++ tok.symbol ++ " - User: " ++ rd
  | .liquidateBorrow lq b _ _ _ =>
      "LiquidateBorrow event error for token " ++ tok.symbol
        ++ " - Liquidator: " ++ lq ++ ", Borrower: " ++ b
  | .transfer _ _ _ =>
      "Error processing Transfer event from " ++ cn

/-- logError: append context and message to the error-log file; a failing
file write (fileOk = false) is swallowed with only a console message. -/
def logErrorRun (fileOk : Bool) (db : DB) (ctx msg : String) : DB :=
  if fileOk then { db with errorLog := db.errorLog ++ [ctx ++ " / Error: " ++ msg] }
  else { db with consoleErrors := db.consoleErrors ++ ["Failed to write to error log: " ++ msg] }

/-- The catch block every handler shares: console.error the [EVENT ERROR]
line, then logError with the same context string. -/
def handleCatch (fileOk : Bool) (cn : String) (tok : Token) (ev : RawEvent)
    (msg : String) (db : DB) : DB :=
  logErrorRun fileOk
    { db with consoleErrors :=
        db.consoleErrors ++ ["[EVENT ERROR] " ++ errorContext cn tok ev ++ ": " ++ msg] }
    (errorContext cn tok ev) msg

/-- One handler invocation with explicit exception behaviour.  outcome
none: the try block runs to completion (the pure processEvent).  outcome
some (msg, part): the external storage throws an exception with message
msg partway through the try block, leaving the store in state part db;
the catch block then runs.  The second component is the exception
escaping the handler itself. -/
def handleEvent (fileOk : Bool) (cn : String) (tok : Token) (m : EventMeta) (ev : RawEvent)
    (outcome : Option (String × (DB → DB))) (db : DB) : DB × Option String :=
  match outcome with
  | none => (processEvent db tok m ev, none)
  | some (msg, part) => (handleCatch fileOk cn tok ev msg (part db), none)

/-- One element of a processed event stream: market data, metadata, the
raw event and its exception outcome. -/
structure Step where
  fileOk : Bool
  cn : String
  tok : Token
  m : EventMeta
  ev : RawEvent
  outcome : Option (String × (DB → DB))

/-- Run a stream of handler invocations; an exception escaping one
handler would abort the remainder of the stream. -/
def runSteps (db : DB) : List Step → DB × Option String
  | [] => (db, none)
  | s :: rest =>
      match handleEvent s.fileOk s.cn s.tok s.m s.ev s.outcome db with
      | (db1, none) => runSteps db1 rest
      | (db1, some msg) => (db1, some msg)

theorem storeEvent_metrics (db : DB) (e : IndexedEvent) :
    (storeEvent db e).metrics = db.metrics := by
  simp only [storeEvent, storeEventRun]
  split <;> rfl

theorem processEvent_borrow_metrics (db : DB) (tok : Token) (m : EventMeta)
    (b : Address) (amt ab tb : Nat) :
    (processEvent db tok m (.borrow b amt ab tb)).metrics =
      fun a t => if a = b ∧ t = tok.symbol then
        some (match db.metrics b tok.symbol with
              | some p => (p.1, (ab : Int))
              | none => (0, (ab : Int)))
        else db.metrics a t := by
  unfold processEvent upsertMetric
  simp [storeEvent_metrics]

theorem storeEvent_fresh (db : DB) (e : IndexedEvent)
    (h : (db.txLog.any fun x => x.id == mkId e) = false) :
    storeEvent db e =
      { db with txLog := db.txLog ++ [mkRecord e], links := storeLinks db.links e } := by
  unfold storeEvent storeEventRun
  have h2 : (db.txLog.any fun x => x.id == (mkRecord e).id) = false := by
    simpa [mkRecord] using h
  simp only [h2, Bool.false_eq_true, if_false]

theorem storeEvent_dup (db : DB) (e : IndexedEvent)
    (h : (db.txLog.any fun x => x.id == mkId e) = true) :
    storeEvent db e =
      { db with consoleErrors := db.consoleErrors ++ ["[DB ERROR] " ++ storeEventErrCtx e],
                errorLog := db.errorLog ++ [storeEventErrCtx e] } := by
  unfold storeEvent storeEventRun
  have h2 : (db.txLog.any fun x => x.id == (mkRecord e).id) = true := by
    simpa [mkRecord] using h
  simp only [h2, if_true]

theorem storeEventRun_never_raises (db : DB) (e : IndexedEvent) :
    (storeEventRun db e).2 = none := by
  simp only [storeEventRun]
  split <;> rfl

theorem processEvent_repay_metrics (db : DB) (tok : Token) (m : EventMeta)
    (p b : Address) (amt ab tb : Nat) :
    (processEvent db tok m (.repayBorrow p b amt ab tb)).metrics =
      fun a t => if a = b ∧ t = tok.symbol then
        some (match db.metrics b tok.symbol with
              | some q => (q.1, (ab : Int))
              | none => (0, (ab : Int)))
        else db.metrics a t := by
  unfold processEvent upsertMetric
  simp [storeEvent_metrics]

theorem processEvent_liquidate_metrics (db : DB) (tok : Token) (m : EventMeta)
    (lq b coll : Address) (r seize : Nat) :
    (processEvent db tok m (.liquidateBorrow lq b r coll seize)).metrics =
      fun a t => if a = b ∧ t = tok.symbol then
        some (match db.metrics b tok.symbol with
              | some q => (q.1, q.2 - (r : Int))
              | none => (0, 0))
        else db.metrics a t := by
  unfold processEvent upsertMetric
  simp [storeEvent_metrics]

/-- Final balances written by a Borrow: amountBorrowed is overwritten with
accountBorrows and amountSupplied is preserved (an absent cell reads 0). -/
theorem borrow_final (db : DB) (tok : Token) (m : EventMeta) (b : Address) (amt ab tb : Nat) :
    borrowedOf (processEvent db tok m (.borrow b amt ab tb)) b tok.symbol = (ab : Int)
    ∧ suppliedOf (processEvent db tok m (.borrow b amt ab tb)) b tok.symbol
        = suppliedOf db b tok.symbol := by
  rcases h : db.metrics b tok.symbol with _ | q <;>
    simp [borrowedOf, suppliedOf, processEvent_borrow_metrics, h]

/-- Final balances written by a RepayBorrow: same overwrite semantics. -/
theorem repay_final (db : DB) (tok : Token) (m : EventMeta) (p b : Address) (amt ab tb : Nat) :
    borrowedOf (processEvent db tok m (.repayBorrow p b amt ab tb)) b tok.symbol = (ab : Int)
    ∧ suppliedOf (processEvent db tok m (.repayBorrow p b amt ab tb)) b tok.symbol
        = suppliedOf db b tok.symbol := by
  rcases h : db.metrics b tok.symbol with _ | q <;>
    simp [borrowedOf, suppliedOf, processEvent_repay_metrics, h]

/-- C1: the claim says a LiquidateBorrow writes max(0, c - r) for the
borrower, clamped at zero with the anomaly flagged, so amountBorrowed is
never negative.  Counterexample: with tracked borrowed c = 5 and
repayAmount r = 10 the handler stores c - r = -5, a negative value, and
flags nothing (console error stream stays empty). -/
theorem c1_liquidate_clamp_counterexample :
    borrowedOf (processEvent dbB5 tokDAI meta0 (.liquidateBorrow "0xL" "0xB" 10 "0xC" 3)) "0xB" "DAI" = -5
    ∧ borrowedOf (processEvent dbB5 tokDAI meta0 (.liquidateBorrow "0xL" "0xB" 10 "0xC" 3)) "0xB" "DAI" < 0
    ∧ (processEvent dbB5 tokDAI meta0 (.liquidateBorrow "0xL" "0xB" 10 "0xC" 3)).consoleErrors = [] := by
  decide

/-- C1 (amended): a LiquidateBorrow for a borrower with tracked pair
(s, c) writes amountBorrowed := c - r with no clamping, so the stored
value is negative whenever r > c, leaves amountSupplied at s, and flags
no anomaly (neither console error stream nor error log changes when the
transaction record is fresh). -/
theorem c1_liquidate_unclamped_delta (db : DB) (tok : Token) (m : EventMeta)
    (lq b coll : Address) (r seize : Nat) (s c : Int)
    (hcell : db.metrics b tok.symbol = some (s, c))
    (hfresh : (db.txLog.any fun x =>
      x.id == mkId (normalizeEvent tok m (.liquidateBorrow lq b r coll seize))) = false) :
    borrowedOf (processEvent db tok m (.liquidateBorrow lq b r coll seize)) b tok.symbol = c - (r : Int)
    ∧ suppliedOf (processEvent db tok m (.liquidateBorrow lq b r coll seize)) b tok.symbol = s
    ∧ (processEvent db tok m (.liquidateBorrow lq b r coll seize)).consoleErrors = db.consoleErrors
    ∧ (processEvent db tok m (.liquidateBorrow lq b r coll seize)).errorLog = db.errorLog := by
  have hs := storeEvent_fresh db (normalizeEvent tok m (.liquidateBorrow lq b r coll seize)) hfresh
  refine ⟨?_, ?_, ?_, ?_⟩
  · simp [borrowedOf, processEvent_liquidate_metrics, hcell]
  · simp [suppliedOf, processEvent_liquidate_metrics, hcell]
  · simp only [processEvent, upsertMetric, hs]
  · simp only [processEvent, upsertMetric, hs]

theorem c1_liquidate_unclamped_delta_witness :
    dbB5.metrics "0xB" "DAI" = some (0, 5)
    ∧ borrowedOf (processEvent dbB5 tokDAI meta0 (.liquidateBorrow "0xL" "0xB" 2 "0xC" 3)) "0xB" "DAI" = 3 :=
  ⟨by decide, by
    have h := c1_liquidate_unclamped_delta dbB5 tokDAI meta0 "0xL" "0xB" "0xC" 2 3 0 5
      (by decide) (by decide)
    simpa using h.1⟩

/-- C2: after a successful first insert, re-submitting the same
(transactionHash, logIndex) TransactionRecord is a no-op at the public
interface of storeEvent: the transaction log gains no duplicate row (row
count unchanged), and the duplicate-key exception thrown by the insert
is caught inside storeEvent, so the caller sees no failure. -/
theorem c2_duplicate_insert_noop (db : DB) (e : IndexedEvent)
    (hfresh : (db.txLog.any fun x => x.id == mkId e) = false) :
    (storeEvent db e).txLog = db.txLog ++ [mkRecord e]
    ∧ (storeEvent (storeEvent db e) e).txLog = (storeEvent db e).txLog
    ∧ (storeEventRun (storeEvent db e) e).2 = none := by
  have h1 := storeEvent_fresh db e hfresh
  have h2 : ((storeEvent db e).txLog.any fun x => x.id == mkId e) = true := by
    rw [h1]
    simp [mkRecord]
  have h3 := storeEvent_dup (storeEvent db e) e h2
  exact ⟨by rw [h1], by rw [h3], storeEventRun_never_raises _ _⟩

theorem c2_duplicate_insert_noop_witness :
    ((emptyDB.txLog.any fun x => x.id == mkId (normalizeEvent tokDAI meta0 (.mint "0xA" 5 2))) = false)
    ∧ (storeEvent (storeEvent emptyDB (normalizeEvent tokDAI meta0 (.mint "0xA" 5 2)))
        (normalizeEvent tokDAI meta0 (.mint "0xA" 5 2))).txLog
      = (storeEvent emptyDB (normalizeEvent tokDAI meta0 (.mint "0xA" 5 2))).txLog :=
  ⟨by decide, (c2_duplicate_insert_noop emptyDB (normalizeEvent tokDAI meta0 (.mint "0xA" 5 2))
      (by decide)).2.1⟩

/-- C4: a Borrow or RepayBorrow overwrites the borrower's amountBorrowed
for the token with exactly the reported accountBorrows and leaves the
borrower's amountSupplied for that token unchanged. -/
theorem c4_accountBorrows_overwrite (db : DB) (tok : Token) (m : EventMeta)
    (payer b : Address) (amt ab tb : Nat) :
    (borrowedOf (processEvent db tok m (.borrow b amt ab tb)) b tok.symbol = (ab : Int)
      ∧ suppliedOf (processEvent db tok m (.borrow b amt ab tb)) b tok.symbol
          = suppliedOf db b tok.symbol)
    ∧ (borrowedOf (processEvent db tok m (.repayBorrow payer b amt ab tb)) b tok.symbol = (ab : Int)
      ∧ suppliedOf (processEvent db tok m (.repayBorrow payer b amt ab tb)) b tok.symbol
          = suppliedOf db b tok.symbol) :=
  ⟨borrow_final db tok m b amt ab tb, repay_final db tok m payer b amt ab tb⟩

/-- C5: applying the same Borrow or RepayBorrow event twice in succession
yields the same final amountBorrowed for the (user, token) as applying it
once: both runs end with accountBorrows. -/
theorem c5_borrow_repay_idempotent (db : DB) (tok : Token) (m : EventMeta)
    (payer b : Address) (amt ab tb : Nat) :
    borrowedOf (processEvent (processEvent db tok m (.borrow b amt ab tb)) tok m
        (.borrow b amt ab tb)) b tok.symbol
      = borrowedOf (processEvent db tok m (.borrow b amt ab tb)) b tok.symbol
    ∧ borrowedOf (processEvent (processEvent db tok m (.repayBorrow payer b amt ab tb)) tok m
        (.repayBorrow payer b amt ab tb)) b tok.symbol
      = borrowedOf (processEvent db tok m (.repayBorrow payer b amt ab tb)) b tok.symbol := by
  constructor
  · rw [(borrow_final _ tok m b amt ab tb).1, (borrow_final _ tok m b amt ab tb).1]
  · rw [(repay_final _ tok m payer b amt ab tb).1, (repay_final _ tok m payer b amt ab tb).1]

/-- Metrics written by an ordinary (non-mint, non-burn) Transfer: the
receiver gets its stale read plus the amount, written last (so it also
wins when sender and receiver coincide); the sender cell, unless
overwritten by the receiver write, gets its read minus the amount,
clamped at zero when the amount exceeds the read. -/
theorem processEvent_transfer_ordinary_metrics (db : DB) (tok : Token) (m : EventMeta)
    (frm t2 : Address) (amt : Nat)
    (hf : frm ≠ zeroAddress) (ht : t2 ≠ zeroAddress) :
    (processEvent db tok m (.transfer frm t2 amt)).metrics =
      fun a t =>
        if a = t2 ∧ t = tok.symbol then
          some (((db.metrics t2 tok.symbol).getD (0, 0)).1 + (amt : Int),
                ((db.metrics t2 tok.symbol).getD (0, 0)).2)
        else if a = frm ∧ t = tok.symbol then
          some (if (amt : Int) ≤ ((db.metrics frm tok.symbol).getD (0, 0)).1
                then (((db.metrics frm tok.symbol).getD (0, 0)).1 - (amt : Int),
                      ((db.metrics frm tok.symbol).getD (0, 0)).2)
                else (0, ((db.metrics frm tok.symbol).getD (0, 0)).2))
        else db.metrics a t := by
  funext a t
  simp only [processEvent, upsertMetric, storeEvent_metrics, hf, ht, if_false, if_neg]
  split_ifs <;> simp_all [storeEvent_metrics]

/-- C9: an ordinary self-transfer (from = to, not the sentinel) of amount
amt leaves the supplied balance at its prior value plus amt: the credit
upsert, computed from the stale read and written second, overwrites the
debit upsert.  The borrowed balance is untouched. -/
theorem c9_self_transfer_credit_wins (db : DB) (tok : Token) (m : EventMeta)
    (a : Address) (amt : Nat) (ha : a ≠ zeroAddress) :
    suppliedOf (processEvent db tok m (.transfer a a amt)) a tok.symbol
      = suppliedOf db a tok.symbol + (amt : Int)
    ∧ borrowedOf (processEvent db tok m (.transfer a a amt)) a tok.symbol
      = borrowedOf db a tok.symbol := by
  constructor <;>
    simp [suppliedOf, borrowedOf, processEvent_transfer_ordinary_metrics db tok m a a amt ha ha]

theorem c9_self_transfer_credit_wins_witness :
    ("0xA" : Address) ≠ zeroAddress
    ∧ suppliedOf (processEvent dbA5 tokDAI meta0 (.transfer "0xA" "0xA" 7)) "0xA" "DAI"
        = suppliedOf dbA5 "0xA" "DAI" + 7 :=
  ⟨by decide, (c9_self_transfer_credit_wins dbA5 tokDAI meta0 "0xA" 7 (by decide)).1⟩

/-- C6: the claim says any Transfer (burn or ordinary) whose amount
exceeds the sender's supplied balance leaves the sender at exactly zero.
Counterexample: an ordinary self-transfer of 1000 from 0xA, whose
supplied balance is 5, ends with the sender's supplied balance at 1005,
not 0 (the credit upsert overwrites the clamped debit). -/
theorem c6_underflow_clamp_counterexample :
    suppliedOf dbA5 "0xA" "DAI" = 5
    ∧ suppliedOf (processEvent dbA5 tokDAI meta0 (.transfer "0xA" "0xA" 1000)) "0xA" "DAI" = 1005 := by
  constructor <;> decide

/-- C6 (amended): for a burn-pattern Transfer, or an ordinary Transfer
whose sender and receiver differ, an amount exceeding the sender's
current supplied balance leaves the sender's supplied balance at exactly
zero (never negative), appends exactly one [BALANCE ERROR] anomaly
record, and still logs the transaction (given a fresh record key).  The
original claim fails only for ordinary self-transfers, where the credit
upsert overwrites the clamped debit. -/
theorem c6_underflow_clamp_amended (db : DB) (tok : Token) (m : EventMeta)
    (frm t2 : Address) (amt : Nat)
    (hf : frm ≠ zeroAddress) (hft : frm ≠ t2)
    (hover : suppliedOf db frm tok.symbol < (amt : Int))
    (hfresh : (db.txLog.any fun x =>
      x.id == mkId (normalizeEvent tok m (.transfer frm t2 amt))) = false) :
    suppliedOf (processEvent db tok m (.transfer frm t2 amt)) frm tok.symbol = 0
    ∧ (processEvent db tok m (.transfer frm t2 amt)).consoleErrors
        = db.consoleErrors
          ++ [if t2 = zeroAddress then burnErr frm (suppliedOf db frm tok.symbol) amt
              else xferErr frm (suppliedOf db frm tok.symbol) amt]
    ∧ (processEvent db tok m (.transfer frm t2 amt)).txLog
        = db.txLog ++ [mkRecord (normalizeEvent tok m (.transfer frm t2 amt))] := by
  have hs := storeEvent_fresh db (normalizeEvent tok m (.transfer frm t2 amt)) hfresh
  have hnle : ¬ ((amt : Int) ≤ ((db.metrics frm tok.symbol).getD 0).1) := by
    simpa [suppliedOf, Prod.mk_zero_zero] using not_le.mpr hover
  by_cases h2 : t2 = zeroAddress
  · subst h2
    refine ⟨?_, ?_, ?_⟩ <;>
      simp [processEvent, upsertMetric, suppliedOf, hs, hf, hnle, hft]
  · refine ⟨?_, ?_, ?_⟩ <;>
      simp [processEvent, upsertMetric, suppliedOf, hs, hf, h2, hnle, hft, Ne.symm hft]

theorem c6_underflow_clamp_amended_witness :
    (("0xA" : Address) ≠ zeroAddress ∧ ("0xA" : Address) ≠ "0xB"
      ∧ suppliedOf dbA5 "0xA" "DAI" < (1000 : Int)
      ∧ (dbA5.txLog.any fun x =>
          x.id == mkId (normalizeEvent tokDAI meta0 (.transfer "0xA" "0xB" 1000))) = false)
    ∧ suppliedOf (processEvent dbA5 tokDAI meta0 (.transfer "0xA" "0xB" 1000)) "0xA" "DAI" = 0 :=
  ⟨⟨by decide, by decide, by decide, by decide⟩,
    (c6_underflow_clamp_amended dbA5 tokDAI meta0 "0xA" "0xB" 1000
      (by decide) (by decide) (by decide) (by decide)).1⟩

/-- C7: a Mint or a Redeem event alone mutates no balance: the metrics
map is left pointwise unchanged; given a fresh record key the only state
changes are the new transaction-log row and the address-link membership
(console and error logs are also untouched). -/
theorem c7_mint_redeem_no_mutation (db : DB) (tok : Token) (m : EventMeta)
    (u : Address) (amt tks : Nat)
    (hfreshM : (db.txLog.any fun x => x.id == mkId (normalizeEvent tok m (.mint u amt tks))) = false)
    (hfreshR : (db.txLog.any fun x => x.id == mkId (normalizeEvent tok m (.redeem u amt tks))) = false) :
    ((processEvent db tok m (.mint u amt tks)).metrics = db.metrics
      ∧ (processEvent db tok m (.mint u amt tks)).txLog
          = db.txLog ++ [mkRecord (normalizeEvent tok m (.mint u amt tks))]
      ∧ (processEvent db tok m (.mint u amt tks)).links
          = storeLinks db.links (normalizeEvent tok m (.mint u amt tks))
      ∧ (processEvent db tok m (.mint u amt tks)).consoleErrors = db.consoleErrors
      ∧ (processEvent db tok m (.mint u amt tks)).errorLog = db.errorLog)
    ∧ ((processEvent db tok m (.redeem u amt tks)).metrics = db.metrics
      ∧ (processEvent db tok m (.redeem u amt tks)).txLog
          = db.txLog ++ [mkRecord (normalizeEvent tok m (.redeem u amt tks))]
      ∧ (processEvent db tok m (.redeem u amt tks)).links
          = storeLinks db.links (normalizeEvent tok m (.redeem u amt tks))
      ∧ (processEvent db tok m (.redeem u amt tks)).consoleErrors = db.consoleErrors
      ∧ (processEvent db tok m (.redeem u amt tks)).errorLog = db.errorLog) := by
  have h1 := storeEvent_fresh db (normalizeEvent tok m (.mint u amt tks)) hfreshM
  have h2 := storeEvent_fresh db (normalizeEvent tok m (.redeem u amt tks)) hfreshR
  refine ⟨⟨?_, ?_, ?_, ?_, ?_⟩, ⟨?_, ?_, ?_, ?_, ?_⟩⟩ <;>
    simp only [processEvent, h1, h2]

theorem c7_mint_redeem_no_mutation_witness :
    ((emptyDB.txLog.any fun x =>
        x.id == mkId (normalizeEvent tokDAI meta0 (.mint "0xA" 50 20))) = false)
    ∧ (processEvent emptyDB tokDAI meta0 (.mint "0xA" 50 20)).metrics = emptyDB.metrics :=
  ⟨by decide,
    (c7_mint_redeem_no_mutation emptyDB tokDAI meta0 "0xA" 50 20 (by decide) (by decide)).1.1⟩

/-- Pointwise effect of an ordinary, non-self Transfer without underflow:
the receiver gains the amount, the sender loses it, all other supplied
balances for the token are untouched. -/
theorem transfer_ordinary_supplied_pointwise (db : DB) (tok : Token) (m : EventMeta)
    (frm t2 : Address) (amt : Nat)
    (hf : frm ≠ zeroAddress) (ht : t2 ≠ zeroAddress) (hft : frm ≠ t2)
    (hno : (amt : Int) ≤ suppliedOf db frm tok.symbol) (a : Address) :
    suppliedOf (processEvent db tok m (.transfer frm t2 amt)) a tok.symbol
      = suppliedOf db a tok.symbol + (if a = t2 then (amt : Int) else 0)
        - (if a = frm then (amt : Int) else 0) := by
  have hle : ((amt : Int) ≤ ((db.metrics frm tok.symbol).getD 0).1) := by
    simpa [suppliedOf, Prod.mk_zero_zero] using hno
  by_cases h1 : a = t2
  · simp [suppliedOf, processEvent_transfer_ordinary_metrics db tok m frm t2 amt hf ht,
      h1, Ne.symm hft]
  · by_cases h2 : a = frm
    · simp [suppliedOf, processEvent_transfer_ordinary_metrics db tok m frm t2 amt hf ht,
        h1, h2, hft, hle]
    · simp [suppliedOf, processEvent_transfer_ordinary_metrics db tok m frm t2 amt hf ht,
        h1, h2]

/-- A single in-set, non-sentinel, non-self, non-underflowing Transfer
preserves the total supplied balance over the set. -/
theorem sum_supplied_invariant_step (S : Finset Address) (db : DB) (tok : Token)
    (m : EventMeta) (frm t2 : Address) (amt : Nat) (hfS : frm ∈ S) (htS : t2 ∈ S)
    (hf : frm ≠ zeroAddress) (ht : t2 ≠ zeroAddress) (hft : frm ≠ t2)
    (hno : (amt : Int) ≤ suppliedOf db frm tok.symbol) :
    ∑ a ∈ S, suppliedOf (processEvent db tok m (.transfer frm t2 amt)) a tok.symbol
      = ∑ a ∈ S, suppliedOf db a tok.symbol := by
  have hpt := transfer_ordinary_supplied_pointwise db tok m frm t2 amt hf ht hft hno
  calc ∑ a ∈ S, suppliedOf (processEvent db tok m (.transfer frm t2 amt)) a tok.symbol
      = ∑ a ∈ S, (suppliedOf db a tok.symbol + (if a = t2 then (amt : Int) else 0)
          - (if a = frm then (amt : Int) else 0)) :=
        Finset.sum_congr rfl (fun a _ => hpt a)
    _ = ∑ a ∈ S, suppliedOf db a tok.symbol := by
        rw [Finset.sum_sub_distrib, Finset.sum_add_distrib,
          Finset.sum_ite_eq' S t2 (fun _ => (amt : Int)),
          Finset.sum_ite_eq' S frm (fun _ => (amt : Int))]
        simp [hfS, htS]

/-- C3: the claim says the total supplied balance over a closed set of
non-sentinel addresses is invariant under any sequence of ordinary
Transfer events.  Counterexample: over the set containing 0xA and 0xB, a
single ordinary Transfer of 5 from 0xA (whose supplied balance is 0, so
the debit clamps to zero) to 0xB raises the total from 0 to 5. -/
theorem c3_conservation_counterexample :
    (∑ a ∈ ({"0xA", "0xB"} : Finset Address), suppliedOf emptyDB a "DAI") = 0
    ∧ (∑ a ∈ ({"0xA", "0xB"} : Finset Address),
        suppliedOf (processEvent emptyDB tokDAI meta0 (.transfer "0xA" "0xB" 5)) a "DAI") = 5 := by
  constructor <;> decide

/-- C3 (amended): the total supplied balance over a closed set of
non-sentinel addresses is invariant under any sequence of ordinary
Transfer events in which every step has distinct sender and receiver in
the set and never requests more than the sender's supplied balance at
the state in which it applies (the underflow clamp and the self-transfer
credit are the two ways a step can create balance). -/
theorem c3_conservation_amended (S : Finset Address) (tok : Token) (steps : List XferStep)
    (db : DB) (h : okSteps S tok db steps = true) :
    ∑ a ∈ S, suppliedOf (applyXfers tok db steps) a tok.symbol
      = ∑ a ∈ S, suppliedOf db a tok.symbol := by
  induction steps generalizing db with
  | nil => rfl
  | cons s rest ih =>
    simp only [okSteps, Bool.and_eq_true, decide_eq_true_eq, Bool.not_eq_true',
      beq_eq_false_iff_ne] at h
    obtain ⟨⟨⟨⟨⟨⟨h1, h2⟩, h3⟩, h4⟩, h5⟩, h6⟩, h7⟩ := h
    rw [applyXfers, ih _ h7,
      sum_supplied_invariant_step S db tok s.meta s.frm s.toAddr s.amount h1 h2 h3 h4 h5 h6]

theorem c3_conservation_amended_witness :
    okSteps ({"0xA", "0xB"} : Finset Address) tokDAI dbA5
        [⟨"0xA", "0xB", 4, meta0⟩] = true
    ∧ (∑ a ∈ ({"0xA", "0xB"} : Finset Address),
        suppliedOf (applyXfers tokDAI dbA5 [⟨"0xA", "0xB", 4, meta0⟩]) a "DAI")
      = ∑ a ∈ ({"0xA", "0xB"} : Finset Address), suppliedOf dbA5 a "DAI" :=
  ⟨by decide,
    c3_conservation_amended ({"0xA", "0xB"} : Finset Address) tokDAI
      [⟨"0xA", "0xB", 4, meta0⟩] dbA5 (by decide)⟩

/-- C10: for the delta-updating events (Transfer and LiquidateBorrow) the
balance mutation is applied regardless of the transaction log, hence
regardless of whether the transaction-log insert succeeded: the written
metrics do not depend on the stored log at all; replaying a
LiquidateBorrow has its duplicate-key insert swallowed inside storeEvent
(no new row) while the delta is subtracted a second time; replaying an
ordinary Transfer credits the receiver a second time. -/
theorem c10_delta_applied_regardless (db : DB) (tok : Token) (m : EventMeta)
    (lq b coll frm t2 : Address) (r seize amt : Nat) (s c ts tb : Int) (L : List TxRecord)
    (hcell : db.metrics b tok.symbol = some (s, c))
    (htcell : db.metrics t2 tok.symbol = some (ts, tb))
    (hf : frm ≠ zeroAddress) (ht : t2 ≠ zeroAddress) (hft : frm ≠ t2)
    (hfresh : (db.txLog.any fun x =>
      x.id == mkId (normalizeEvent tok m (.liquidateBorrow lq b r coll seize))) = false) :
    ((processEvent { db with txLog := L } tok m (.liquidateBorrow lq b r coll seize)).metrics
        = (processEvent db tok m (.liquidateBorrow lq b r coll seize)).metrics)
    ∧ ((processEvent { db with txLog := L } tok m (.transfer frm t2 amt)).metrics
        = (processEvent db tok m (.transfer frm t2 amt)).metrics)
    ∧ borrowedOf (processEvent (processEvent db tok m (.liquidateBorrow lq b r coll seize)) tok m
        (.liquidateBorrow lq b r coll seize)) b tok.symbol = c - 2 * (r : Int)
    ∧ (processEvent (processEvent db tok m (.liquidateBorrow lq b r coll seize)) tok m
        (.liquidateBorrow lq b r coll seize)).txLog
      = (processEvent db tok m (.liquidateBorrow lq b r coll seize)).txLog
    ∧ suppliedOf (processEvent (processEvent db tok m (.transfer frm t2 amt)) tok m
        (.transfer frm t2 amt)) t2 tok.symbol = ts + 2 * (amt : Int) := by
  have hcell1 : (processEvent db tok m (.liquidateBorrow lq b r coll seize)).metrics b tok.symbol
      = some (s, c - (r : Int)) := by
    rw [processEvent_liquidate_metrics]
    simp [hcell]
  have ht1 : (processEvent db tok m (.liquidateBorrow lq b r coll seize)).txLog
      = db.txLog ++ [mkRecord (normalizeEvent tok m (.liquidateBorrow lq b r coll seize))] := by
    simp only [processEvent, upsertMetric,
      storeEvent_fresh db (normalizeEvent tok m (.liquidateBorrow lq b r coll seize)) hfresh]
  have hdup : ((processEvent db tok m (.liquidateBorrow lq b r coll seize)).txLog.any fun x =>
      x.id == mkId (normalizeEvent tok m (.liquidateBorrow lq b r coll seize))) = true := by
    rw [ht1]
    simp [mkRecord]
  have htc1 : (processEvent db tok m (.transfer frm t2 amt)).metrics t2 tok.symbol
      = some (ts + (amt : Int), tb) := by
    rw [processEvent_transfer_ordinary_metrics db tok m frm t2 amt hf ht]
    simp [htcell]
  refine ⟨?_, ?_, ?_, ?_, ?_⟩
  · rw [processEvent_liquidate_metrics, processEvent_liquidate_metrics]
  · rw [processEvent_transfer_ordinary_metrics _ tok m frm t2 amt hf ht,
      processEvent_transfer_ordinary_metrics db tok m frm t2 amt hf ht]
  · rw [borrowedOf, processEvent_liquidate_metrics]
    simp only [hcell1, and_self, if_true]
    simp
    ring
  · generalize hg : processEvent db tok m (.liquidateBorrow lq b r coll seize) = db1 at hdup ⊢
    simp only [processEvent, upsertMetric,
      storeEvent_dup db1 (normalizeEvent tok m (.liquidateBorrow lq b r coll seize)) hdup]
  · rw [suppliedOf, processEvent_transfer_ordinary_metrics _ tok m frm t2 amt hf ht]
    simp only [htc1, and_self, if_true]
    simp
    ring

theorem c10_delta_applied_regardless_witness :
    (dbReplay.metrics "0xB" "DAI" = some (0, 5)
      ∧ dbReplay.metrics "0xV" "DAI" = some (7, 1)
      ∧ ("0xU" : Address) ≠ zeroAddress ∧ ("0xV" : Address) ≠ zeroAddress
      ∧ ("0xU" : Address) ≠ "0xV"
      ∧ (dbReplay.txLog.any fun x =>
          x.id == mkId (normalizeEvent tokDAI meta0 (.liquidateBorrow "0xL" "0xB" 2 "0xC" 1))) = false)
    ∧ borrowedOf (processEvent
        (processEvent dbReplay tokDAI meta0 (.liquidateBorrow "0xL" "0xB" 2 "0xC" 1)) tokDAI meta0
        (.liquidateBorrow "0xL" "0xB" 2 "0xC" 1)) "0xB" "DAI" = 5 - 2 * 2
    ∧ suppliedOf (processEvent
        (processEvent dbReplay tokDAI meta0 (.transfer "0xU" "0xV" 3)) tokDAI meta0
        (.transfer "0xU" "0xV" 3)) "0xV" "DAI" = 7 + 2 * 3 :=
  ⟨⟨by decide, by decide, by decide, by decide, by decide, by decide⟩,
    (c10_delta_applied_regardless dbReplay tokDAI meta0 "0xL" "0xB" "0xC" "0xU" "0xV"
      2 1 3 0 5 7 1 [] (by decide) (by decide) (by decide) (by decide) (by decide)
      (by decide)).2.2.1,
    (c10_delta_applied_regardless dbReplay tokDAI meta0 "0xL" "0xB" "0xC" "0xU" "0xV"
      2 1 3 0 5 7 1 [] (by decide) (by decide) (by decide) (by decide) (by decide)
      (by decide)).2.2.2.2⟩

theorem handleEvent_never_raises (fileOk : Bool) (cn : String) (tok : Token) (m : EventMeta)
    (ev : RawEvent) (outcome : Option (String × (DB → DB))) (db : DB) :
    (handleEvent fileOk cn tok m ev outcome db).2 = none := by
  rcases outcome with _ | ⟨msg, part⟩ <;> rfl

/-- C8: the claim says every caught exception is recorded with context
naming the event kind, user, and token.  Counterexample: the Transfer
handler builds its catch context only from the market contract name; for
a failing Transfer on the first configured market the recorded context
is the fixed string "Error processing Transfer event from MToken" -
identical for two different from-addresses, hence naming neither the
user nor the token symbol. -/
theorem c8_transfer_context_counterexample :
    errorContext (contractNameOf true tokDAI) tokDAI (.transfer "0xUA" "0xB" 5)
      = "Error processing Transfer event from MToken"
    ∧ errorContext (contractNameOf true tokDAI) tokDAI (.transfer "0xUC" "0xB" 5)
      = errorContext (contractNameOf true tokDAI) tokDAI (.transfer "0xUA" "0xB" 5) := by
  constructor <;> decide

/-- C8 (amended): any exception thrown while computing or applying the
update of one event is caught at that event's boundary and never escapes
the handler (regardless of whether the fault-log file write itself
fails); the catch appends one [EVENT ERROR] record built from the
handler's context string and the error, and touches neither balances nor
the transaction log beyond the state the try block had reached; for
Borrow, RepayBorrow, Mint, Redeem and LiquidateBorrow that context names
the event kind, user and token, while for Transfer it names only the
event kind and the market contract name; and a stream of events is
processed to the end, one handler per event, so a failure on one event
never blocks the others. -/
theorem c8_exceptions_caught_amended (fileOk : Bool) (cn : String) (tok : Token)
    (m : EventMeta) (ev : RawEvent) (db : DB) (msg : String) (part : DB → DB) :
    (∀ outcome, (handleEvent fileOk cn tok m ev outcome db).2 = none)
    ∧ (handleEvent fileOk cn tok m ev (some (msg, part)) db).1.metrics = (part db).metrics
    ∧ (handleEvent fileOk cn tok m ev (some (msg, part)) db).1.txLog = (part db).txLog
    ∧ ("[EVENT ERROR] " ++ errorContext cn tok ev ++ ": " ++ msg)
        ∈ (handleEvent fileOk cn tok m ev (some (msg, part)) db).1.consoleErrors
    ∧ (∀ b amt ab tb, errorContext cn tok (.borrow b amt ab tb)
        = "Borrow event error for token " ++ tok.symbol ++ " - User: " ++ b)
    ∧ (∀ p b amt ab tb, errorContext cn tok (.repayBorrow p b amt ab tb)
        = "RepayBorrow event error for token " ++ tok.symbol
            ++ " - Borrower: " ++ b ++ ", Payer: " ++ p)
    ∧ (∀ mn amt tks, errorContext cn tok (.mint mn amt tks)
        = "Mint event error for token " ++ tok.symbol ++ " - User: " ++ mn)
    ∧ (∀ rd amt tks, errorContext cn tok (.redeem rd amt tks)
        = "Redeem event error for token " ++ tok.symbol ++ " - User: " ++ rd)
    ∧ (∀ lq b r coll seize, errorContext cn tok (.liquidateBorrow lq b r coll seize)
        = "LiquidateBorrow event error for token " ++ tok.symbol
            ++ " - Liquidator: " ++ lq ++ ", Borrower: " ++ b)
    ∧ (∀ f t2 amt, errorContext cn tok (.transfer f t2 amt)
        = "Error processing Transfer event from " ++ cn)
    ∧ (∀ (steps : List Step) (db0 : DB), (runSteps db0 steps).2 = none)
    ∧ (∀ (s : Step) (rest : List Step) (db0 : DB),
        runSteps db0 (s :: rest)
          = runSteps (handleEvent s.fileOk s.cn s.tok s.m s.ev s.outcome db0).1 rest) := by
  have hrun : ∀ (s : Step) (rest : List Step) (db0 : DB),
      runSteps db0 (s :: rest)
        = runSteps (handleEvent s.fileOk s.cn s.tok s.m s.ev s.outcome db0).1 rest := by
    intro s rest db0
    rw [runSteps]
    have h := handleEvent_never_raises s.fileOk s.cn s.tok s.m s.ev s.outcome db0
    rcases hh : handleEvent s.fileOk s.cn s.tok s.m s.ev s.outcome db0 with ⟨db1, exc⟩
    rw [hh] at h
    simp only at h
    subst h
    rfl
  have hnever : ∀ (steps : List Step) (db0 : DB), (runSteps db0 steps).2 = none := by
    intro steps
    induction steps with
    | nil => intro db0; rfl
    | cons s rest ih =>
        intro db0
        rw [hrun s rest db0]
        exact ih _
  refine ⟨fun outcome => handleEvent_never_raises fileOk cn tok m ev outcome db,
    ?_, ?_, ?_, ?_, ?_, ?_, ?_, ?_, ?_, hnever, hrun⟩
  · rcases hf : fileOk <;>
      simp [handleEvent, handleCatch, logErrorRun, upsertMetric]
  · rcases hf : fileOk <;>
      simp [handleEvent, handleCatch, logErrorRun]
  · rcases hf : fileOk <;>
      simp [handleEvent, handleCatch, logErrorRun]
  · exact fun b amt ab tb => rfl
  · exact fun p b amt ab tb => rfl
  · exact fun mn amt tks => rfl
  · exact fun rd amt tks => rfl
  · exact fun lq b r coll seize => rfl
  · exact fun f t2 amt => rfl
